import Mathlib

/-!
Verification development for the date-token core of the `obsidian-better-dates`
plugin (`src/main.ts`, second variant: the `@`-trigger suggester with
asterisk-delimited dates).  Strings are modelled as `List Char`; the
moment.js strict-format parser used by the plugin is embedded as a
token-list parser with moment's strict semantics (exact digit counts for
`MM`/`DD`/`YY`/`YYYY`, one-or-two digits for `M`/`D`, anchored
case-insensitive month names, literal separators, no leftover input,
overflow validation of month/day, two-digit years mapped through
`parseTwoDigitYear`).
-/

/-- A canonical calendar date `(year, month, day)`. -/
structure CDate where
  year : Nat
  month : Nat
  day : Nat
deriving DecidableEq

/-- Gregorian leap-year test, as used by moment.js. -/
def isLeapYear (y : Nat) : Bool :=
  y % 4 == 0 && (y % 100 != 0 || y % 400 == 0)

/-- Days in a month, as used by moment.js overflow checking. -/
def daysInMonth (y m : Nat) : Nat :=
  if m = 2 then (if isLeapYear y then 29 else 28)
  else if m = 4 || m = 6 || m = 9 || m = 11 then 30
  else 31

/-- Calendar validity of a `(y, m, d)` triple (moment's overflow check:
month in 1..12, day in 1..daysInMonth). -/
def isValidDate (y m d : Nat) : Bool :=
  1 ≤ m && m ≤ 12 && 1 ≤ d && d ≤ daysInMonth y m

/-- moment's `parseTwoDigitYear`: values up to 68 land in 20xx, the rest in 19xx. -/
def twoDigitYear (v : Nat) : Nat :=
  if v ≤ 68 then 2000 + v else 1900 + v

/-- Numeric value of a decimal digit character. -/
def digitVal (c : Char) : Nat := c.toNat - 48

/-- Two-digit zero-padded decimal rendering (moment `MM`/`DD`/`YY` output
for values below 100). -/
def pad2 (n : Nat) : List Char :=
  [Nat.digitChar (n / 10), Nat.digitChar (n % 10)]

/-- Four-digit zero-padded decimal rendering (moment `YYYY` output for
years below 10000). -/
def pad4 (n : Nat) : List Char :=
  [Nat.digitChar (n / 1000), Nat.digitChar (n / 100 % 10),
   Nat.digitChar (n / 10 % 10), Nat.digitChar (n % 10)]

/-- Greedy one-or-two-digit number (moment token `M`/`D` regex). -/
def read1to2 : List Char → Option (Nat × List Char)
  | [] => none
  | c :: rest =>
    if c.isDigit then
      match rest with
      | c2 :: rest2 =>
        if c2.isDigit then some (10 * digitVal c + digitVal c2, rest2)
        else some (digitVal c, c2 :: rest2)
      | [] => some (digitVal c, [])
    else none

/-- Exactly-two-digit number (moment strict `MM`/`DD`/`YY` regex). -/
def read2 : List Char → Option (Nat × List Char)
  | c1 :: c2 :: rest =>
    if c1.isDigit && c2.isDigit then some (10 * digitVal c1 + digitVal c2, rest)
    else none
  | _ => none

/-- Exactly-four-digit number (moment strict `YYYY` regex). -/
def read4 : List Char → Option (Nat × List Char)
  | c1 :: c2 :: c3 :: c4 :: rest =>
    if c1.isDigit && c2.isDigit && c3.isDigit && c4.isDigit then
      some (1000 * digitVal c1 + 100 * digitVal c2 + 10 * digitVal c3 + digitVal c4, rest)
    else none
  | _ => none

/-- Case-insensitive anchored match of a (lowercase) month-name key
against the input; returns the remaining input on success. -/
def matchNameCI : List Char → List Char → Option (List Char)
  | [], s => some s
  | _ :: _, [] => none
  | p :: ps, c :: cs => if c.toLower = p then matchNameCI ps cs else none

/-- Try each month name in order, returning the 1-based month index of the
first that matches a prefix of the input (moment's strict months regex). -/
def readMonthAux : List (List Char) → Nat → List Char → Option (Nat × List Char)
  | [], _, _ => none
  | n :: ns, i, s =>
    match matchNameCI n s with
    | some r => some (i, r)
    | none => readMonthAux ns (i + 1) s

def monShortNames : List (List Char) :=
  ["jan", "feb", "mar", "apr", "may", "jun", "jul", "aug", "sep", "oct", "nov", "dec"].map
    (·.data)

def monLongNames : List (List Char) :=
  ["january", "february", "march", "april", "may", "june", "july", "august",
   "september", "october", "november", "december"].map (·.data)

def readMonth (names : List (List Char)) (s : List Char) : Option (Nat × List Char) :=
  readMonthAux names 1 s

/-- Capitalised month names as moment renders `MMM`. -/
def monShortCaps : List (List Char) :=
  ["Jan", "Feb", "Mar", "Apr", "May", "Jun", "Jul", "Aug", "Sep", "Oct", "Nov", "Dec"].map
    (·.data)

/-- Capitalised month names as moment renders `MMMM`. -/
def monLongCaps : List (List Char) :=
  ["January", "February", "March", "April", "May", "June", "July", "August",
   "September", "October", "November", "December"].map (·.data)

/-- Tokens of a moment format pattern as used by the plugin's format strings. -/
inductive FTok where
  | numM1to2 : FTok   -- `M`
  | numM2 : FTok      -- `MM`
  | numD1to2 : FTok   -- `D`
  | numD2 : FTok      -- `DD`
  | y2 : FTok         -- `YY`
  | y4 : FTok         -- `YYYY`
  | monShort : FTok   -- `MMM`
  | monLong : FTok    -- `MMMM`
  | lit : Char → FTok -- literal character
deriving DecidableEq

/-- Raw parsed day/month/year parts accumulated while running a format.
Every format used by the plugin sets all three fields, so the initial
values are never observable in a successful strict parse. -/
structure RawDMY where
  y : Nat
  m : Nat
  d : Nat
deriving DecidableEq

/-- Run a moment format pattern over the input in strict mode: each token
must match at the current position and the whole input must be consumed
(any skipped or leftover character makes a moment strict parse invalid). -/
def runToks : List FTok → List Char → RawDMY → Option RawDMY
  | [], s, acc => if s.isEmpty then some acc else none
  | .numM1to2 :: ts, s, acc =>
    match read1to2 s with
    | some (v, r) => runToks ts r ⟨acc.y, v, acc.d⟩
    | none => none
  | .numM2 :: ts, s, acc =>
    match read2 s with
    | some (v, r) => runToks ts r ⟨acc.y, v, acc.d⟩
    | none => none
  | .numD1to2 :: ts, s, acc =>
    match read1to2 s with
    | some (v, r) => runToks ts r ⟨acc.y, acc.m, v⟩
    | none => none
  | .numD2 :: ts, s, acc =>
    match read2 s with
    | some (v, r) => runToks ts r ⟨acc.y, acc.m, v⟩
    | none => none
  | .y2 :: ts, s, acc =>
    match read2 s with
    | some (v, r) => runToks ts r ⟨twoDigitYear v, acc.m, acc.d⟩
    | none => none
  | .y4 :: ts, s, acc =>
    match read4 s with
    | some (v, r) => runToks ts r ⟨v, acc.m, acc.d⟩
    | none => none
  | .monShort :: ts, s, acc =>
    match readMonth monShortNames s with
    | some (v, r) => runToks ts r ⟨acc.y, v, acc.d⟩
    | none => none
  | .monLong :: ts, s, acc =>
    match readMonth monLongNames s with
    | some (v, r) => runToks ts r ⟨acc.y, v, acc.d⟩
    | none => none
  | .lit ch :: ts, s, acc =>
    match s with
    | c :: r => if c = ch then runToks ts r acc else none
    | [] => none

/-- `moment(s, fmt, true)`: strict parse of one format followed by
moment's overflow validation. -/
def momentStrict (f : List FTok) (s : List Char) : Option CDate :=
  match runToks f s ⟨0, 0, 0⟩ with
  | some r => if isValidDate r.y r.m r.d then some ⟨r.y, r.m, r.d⟩ else none
  | none => none

/-- `moment(s, fmts, true)`: first format giving a valid strict parse wins
(with these patterns all simultaneously-valid formats agree, so moment's
score-based choice coincides with first-success). -/
def momentStrictMulti : List (List FTok) → List Char → Option CDate
  | [], _ => none
  | f :: fs, s =>
    match momentStrict f s with
    | some d => some d
    | none => momentStrictMulti fs s

/- Format patterns appearing in the plugin. -/

def fmt_M_D_YY_slash : List FTok := [.numM1to2, .lit '/', .numD1to2, .lit '/', .y2]
def fmt_MM_DD_YY_slash : List FTok := [.numM2, .lit '/', .numD2, .lit '/', .y2]
def fmt_M_D_YY_dash : List FTok := [.numM1to2, .lit '-', .numD1to2, .lit '-', .y2]
def fmt_MM_DD_YY_dash : List FTok := [.numM2, .lit '-', .numD2, .lit '-', .y2]
def fmt_M_D_YYYY_slash : List FTok := [.numM1to2, .lit '/', .numD1to2, .lit '/', .y4]
def fmt_MM_DD_YYYY_slash : List FTok := [.numM2, .lit '/', .numD2, .lit '/', .y4]
def fmt_M_D_YYYY_dash : List FTok := [.numM1to2, .lit '-', .numD1to2, .lit '-', .y4]
def fmt_MM_DD_YYYY_dash : List FTok := [.numM2, .lit '-', .numD2, .lit '-', .y4]
def fmt_YYYY_MM_DD : List FTok := [.y4, .lit '-', .numM2, .lit '-', .numD2]
def fmt_MMM_D_YY : List FTok := [.monShort, .lit ' ', .numD1to2, .lit ' ', .y2]
def fmt_MMM_D_YYYY : List FTok := [.monShort, .lit ' ', .numD1to2, .lit ' ', .y4]
def fmt_MMMM_D_YY : List FTok := [.monLong, .lit ' ', .numD1to2, .lit ' ', .y2]
def fmt_MMMM_D_YYYY : List FTok := [.monLong, .lit ' ', .numD1to2, .lit ' ', .y4]
def fmt_DD_MM_YYYY : List FTok := [.numD2, .lit '/', .numM2, .lit '/', .y4]
def fmt_MMM_D_comma_YYYY : List FTok :=
  [.monShort, .lit ' ', .numD1to2, .lit ',', .lit ' ', .y4]
def fmt_MMMM_D_comma_YYYY : List FTok :=
  [.monLong, .lit ' ', .numD1to2, .lit ',', .lit ' ', .y4]
def fmt_MMM_D_comma_YY : List FTok :=
  [.monShort, .lit ' ', .numD1to2, .lit ',', .lit ' ', .y2]
def fmt_MMMM_D_comma_YY : List FTok :=
  [.monLong, .lit ' ', .numD1to2, .lit ',', .lit ' ', .y2]

/-- The strict format list tried by `DateSuggester.onTrigger`
(`'M/D/YY', 'MM/DD/YY', 'M-D-YY', 'MM-DD-YY', 'M/D/YYYY', 'MM/DD/YYYY',
'M-D-YYYY', 'MM-DD-YYYY', 'YYYY-MM-DD', 'MMM D YY', 'MMM D YYYY',
'MMMM D YY', 'MMMM D YYYY'`). -/
def onTriggerFormats : List (List FTok) :=
  [fmt_M_D_YY_slash, fmt_MM_DD_YY_slash, fmt_M_D_YY_dash, fmt_MM_DD_YY_dash,
   fmt_M_D_YYYY_slash, fmt_MM_DD_YYYY_slash, fmt_M_D_YYYY_dash, fmt_MM_DD_YYYY_dash,
   fmt_YYYY_MM_DD, fmt_MMM_D_YY, fmt_MMM_D_YYYY, fmt_MMMM_D_YY, fmt_MMMM_D_YYYY]

/-- The `supportedFormats` list used by `findDateAtPosition` to validate a
candidate (`'MM/DD/YY', 'MM-DD-YY', 'YYYY-MM-DD', 'DD/MM/YYYY',
'MM/DD/YYYY', 'MMM D, YYYY', 'MMMM D, YYYY', 'MMM D, YY', 'MMMM D, YY'`). -/
def locatorFormats : List (List FTok) :=
  [fmt_MM_DD_YY_slash, fmt_MM_DD_YY_dash, fmt_YYYY_MM_DD, fmt_DD_MM_YYYY,
   fmt_MM_DD_YYYY_slash, fmt_MMM_D_comma_YYYY, fmt_MMMM_D_comma_YYYY,
   fmt_MMM_D_comma_YY, fmt_MMMM_D_comma_YY]

/-- The Format Catalog: the output formats offered in the settings
dropdown (`'MM/DD/YY', 'MM-DD-YY', 'YYYY-MM-DD', 'DD/MM/YYYY',
'MM/DD/YYYY', 'MMM D, YYYY', 'MMMM D, YYYY'`). -/
def catalogFormats : List (List FTok) :=
  [fmt_MM_DD_YY_slash, fmt_MM_DD_YY_dash, fmt_YYYY_MM_DD, fmt_DD_MM_YYYY,
   fmt_MM_DD_YYYY_slash, fmt_MMM_D_comma_YYYY, fmt_MMMM_D_comma_YYYY]

/-- The catalog formats whose pattern also appears in the parser's strict
format list (the "strict-parseable" specs of the catalog). -/
def strictParseableCatalog : List (List FTok) :=
  catalogFormats.filter (fun f => onTriggerFormats.contains f)

/-- Rendering of a single format token by moment `.format`. -/
def renderTok (dt : CDate) : FTok → List Char
  | .numM1to2 => Nat.toDigits 10 dt.month
  | .numM2 => pad2 dt.month
  | .numD1to2 => Nat.toDigits 10 dt.day
  | .numD2 => pad2 dt.day
  | .y2 => pad2 (dt.year % 100)
  | .y4 => pad4 dt.year
  | .monShort => (monShortCaps.getD (dt.month - 1) [])
  | .monLong => (monLongCaps.getD (dt.month - 1) [])
  | .lit c => [c]

/-- `moment(date).format(pattern)` for the patterns used by the plugin. -/
def renderFmt : List FTok → CDate → List Char
  | [], _ => []
  | t :: ts, dt => renderTok dt t ++ renderFmt ts dt

/-! ### The Date Locator (`findDateAtPosition`, second variant) -/

/-- Result record of `findDateAtPosition`:
`{ foundDate: string | null, start: number, end: number }`. -/
structure FindResult where
  foundDate : Option (List Char)
  start : Int
  endPos : Int
deriving DecidableEq

/-- Left-to-right scan for the matches of `/\*([^*]+)\*/g`: each match is a
pair of asterisks with a nonempty asterisk-free interior, and scanning
resumes after the closing asterisk.  The state carries the index of the
currently open `'*'` together with the interior collected so far.
Returns `(start index of the opening '*', interior)` for each match. -/
def scanDelims : List Char → Nat → Option (Nat × List Char) → List (Nat × List Char)
  | [], _, _ => []
  | c :: rest, i, none =>
    if c = '*' then scanDelims rest (i + 1) (some (i, []))
    else scanDelims rest (i + 1) none
  | c :: rest, i, some (st, acc) =>
    if c = '*' then
      if acc.isEmpty then
        -- `**`: the interior would be empty, so the regex fails here and the
        -- second asterisk becomes the new opening candidate
        scanDelims rest (i + 1) (some (i, []))
      else (st, acc) :: scanDelims rest (i + 1) none
    else scanDelims rest (i + 1) (some (st, acc ++ [c]))

/-- The `while ((match = dateRegex.exec(line)) !== null)` loop body: accept
the first candidate whose span contains `ch` (inclusively on both ends,
`ch >= start && ch <= end`) and whose interior validates against the
supported formats; otherwise fall through to the not-found sentinel. -/
def findDateAux (ch : Nat) : List (Nat × List Char) → FindResult
  | [] => ⟨none, -1, -1⟩
  | (st, inner) :: cs =>
    if st ≤ ch ∧ ch ≤ st + inner.length + 2 then
      if (momentStrictMulti locatorFormats inner).isSome then
        ⟨some inner, (st : Int), ((st + inner.length + 2 : Nat) : Int)⟩
      else findDateAux ch cs
    else findDateAux ch cs

/-- `findDateAtPosition(line, ch)` of the second plugin variant: scan for
asterisk-wrapped substrings, validate with
`moment(datePart, supportedFormats, true)`, and return the date part
(delimiters excluded) with the outer span, or the `-1` sentinel. -/
def findDateAtPosition (line : List Char) (ch : Nat) : FindResult :=
  findDateAux ch (scanDelims line 0 none)

/-! ### The `@`-trigger suggester (`DateSuggester.onTrigger` / `getSuggestions`) -/

/-- JS `String.prototype.trim`. -/
def jsTrim (s : List Char) : List Char :=
  ((s.dropWhile (·.isWhitespace)).reverse.dropWhile (·.isWhitespace)).reverse

/-- Greedy capture of one or two digit characters (regex `\d{1,2}`),
returning the captured characters and the rest. -/
def takeDigits1to2 : List Char → Option (List Char × List Char)
  | [] => none
  | c :: rest =>
    if c.isDigit then
      match rest with
      | c2 :: rest2 =>
        if c2.isDigit then some ([c, c2], rest2) else some ([c], c2 :: rest2)
      | [] => some ([c], [])
    else none

/-- Test of `/^\*(\d{1,2}\/\d{1,2}\/\d{2})\*/` (a completed `*M/D/YY*`
date at the start of the trimmed query). -/
def completedDateTest (s : List Char) : Bool :=
  match s with
  | '*' :: s1 =>
    match takeDigits1to2 s1 with
    | some (_, s2) =>
      match s2 with
      | '/' :: s3 =>
        match takeDigits1to2 s3 with
        | some (_, s4) =>
          match s4 with
          | '/' :: s5 =>
            match read2 s5 with
            | some (_, s6) =>
              match s6 with
              | '*' :: _ => true
              | _ => false
            | none => false
          | _ => false
        | none => false
      | _ => false
    | none => false
  | _ => false

/-- JS `lastIndexOf` of a single character. -/
def lastIndexOf (ch : Char) : List Char → Option Nat
  | [] => none
  | c :: cs =>
    match lastIndexOf ch cs with
    | some i => some (i + 1)
    | none => if c = ch then some 0 else none

/-- Match of the month-day regex (one or two digits, a slash or dash
separator, one or two digits, anchored at both ends), returning the two
digit groups. -/
def monthDayMatch (s : List Char) : Option (List Char × List Char) :=
  match takeDigits1to2 s with
  | some (g1, rest) =>
    match rest with
    | sep :: rest2 =>
      if sep = '/' ∨ sep = '-' then
        match takeDigits1to2 rest2 with
        | some (g2, []) => some (g1, g2)
        | _ => none
      else none
    | [] => none
  | none => none

/-- JS `padStart(2, '0')` on a one-or-two-digit capture. -/
def padTo2 (g : List Char) : List Char :=
  if g.length < 2 then '0' :: g else g

/-- The date (if any) that `onTrigger`'s cascade resolves the typed
fragment to: first the strict multi-format parse, then the
month-day match combined with the current year and re-parsed strictly
as `MM/DD/YYYY`. -/
def resolveFragment (query : List Char) (curYear : Nat) : Option CDate :=
  match momentStrictMulti onTriggerFormats query with
  | some d => some d
  | none =>
    match monthDayMatch query with
    | some (g1, g2) =>
      momentStrict fmt_MM_DD_YYYY_slash
        (padTo2 g1 ++ '/' :: (padTo2 g2 ++ '/' :: Nat.toDigits 10 curYear))
    | none => none

/-- The pattern `'*MM/DD/YY*'` used for `finalQuery`. -/
def fmt_star_MM_DD_YY_star : List FTok :=
  [.lit '*', .numM2, .lit '/', .numD2, .lit '/', .y2, .lit '*']

/-- `finalQuery` in `onTrigger`: the resolved date formatted as
`*MM/DD/YY*`, or the raw query when nothing resolved. -/
def finalQuery (query : List Char) (curYear : Nat) : List Char :=
  match resolveFragment query curYear with
  | some d => renderFmt fmt_star_MM_DD_YY_star d
  | none => query

/-- The `EditorSuggestTriggerInfo` produced by `onTrigger` (both positions
are on the cursor's line, so only the column offsets are modelled). -/
structure TriggerInfo where
  startCh : Nat
  endCh : Nat
  query : List Char
deriving DecidableEq

/-- `DateSuggester.onTrigger` (second variant): find the last `'@'` before
the cursor, refuse when a space immediately follows it or when a completed
`*M/D/YY*` date starts the trimmed query, and otherwise return the trigger
info carrying `finalQuery`. -/
def onTrigger (line : List Char) (cursorCh : Nat) (curYear : Nat) : Option TriggerInfo :=
  let sub := line.take cursorCh
  match lastIndexOf '@' sub with
  | none => none
  | some pos =>
    if pos + 1 < sub.length ∧ sub[pos + 1]? = some ' ' then none
    else
      let query := sub.drop (pos + 1)
      if completedDateTest (jsTrim query) then none
      else some ⟨pos, cursorCh, finalQuery query curYear⟩

/-- A suggestion item `{ label, isDate?, dateValue? }`. -/
structure Suggestion where
  label : List Char
  isDate : Bool
  dateValue : Option (List Char)
deriving DecidableEq

/-- The regex test `/^\*.*\*$/`: the string starts and ends with an
asterisk and has at least two characters. -/
def startsEndsAst (s : List Char) : Bool :=
  2 ≤ s.length && s.head? == some '*' && s.getLast? == some '*'

/-- Wrap in asterisks unless `/^\*.*\*$/` already matches (the guard used
by `openDateModal` and by the Today suggestion). -/
def wrapAsterisks (s : List Char) : List Char :=
  if startsEndsAst s then s else '*' :: (s ++ ['*'])

/-- `DateSuggester.getSuggestions` (second variant): a pre-parsed
`*...*` query yields one insert-date suggestion; an all-whitespace query
additionally yields the Today suggestion; the manual picker is always
appended last. -/
def getSuggestions (query : List Char) (dateFormat : List FTok) (today : CDate) :
    List Suggestion :=
  (if query.head? == some '*' && query.getLast? == some '*' then
    [⟨"Insert date: ".data ++ query, true, some query⟩]
  else []) ++
  (if query.all (·.isWhitespace) then
    -- JS `!query.trim()` holds exactly when every character is whitespace
    [⟨"Today: ".data ++ renderFmt dateFormat today, true,
      some (wrapAsterisks (renderFmt dateFormat today))⟩]
  else []) ++
  [⟨"Pick a date...".data, false, none⟩]

/-- The splice performed by `openDateModal`'s `onSubmit` callback: render
the picked date in the configured format, wrap it in asterisks unless it
already starts and ends with one, and replace `line[s..e)` with the
wrapped date followed by a single space. -/
def openDateModalInsert (dateFormat : List FTok) (dt : CDate) (line : List Char)
    (s e : Nat) : List Char :=
  line.take s ++ wrapAsterisks (renderFmt dateFormat dt) ++ ' ' :: line.drop e

/-! ### Helper lemmas -/

theorem startsEndsAst_iff (t : List Char) :
    startsEndsAst t = true ↔ 2 ≤ t.length ∧ t.head? = some '*' ∧ t.getLast? = some '*' := by
  simp [startsEndsAst, and_assoc]

theorem startsEndsAst_wrap (s : List Char) : startsEndsAst (wrapAsterisks s) = true := by
  unfold wrapAsterisks
  split
  · assumption
  · rw [startsEndsAst_iff]
    refine ⟨by simp, rfl, ?_⟩
    rw [← List.cons_append, List.getLast?_concat]

theorem wrapAsterisks_getLast (s : List Char) :
    (wrapAsterisks s).getLast? = some '*' :=
  ((startsEndsAst_iff _).mp (startsEndsAst_wrap s)).2.2

theorem wrapAsterisks_head (s : List Char) :
    (wrapAsterisks s).head? = some '*' :=
  ((startsEndsAst_iff _).mp (startsEndsAst_wrap s)).2.1

/-- Claim C9 (confirmed): the insertion helper wraps the rendered text in a
single pair of asterisk delimiters unless the text already begins and ends
with one (i.e. already carries a pair of delimiter characters); the
wrapping is idempotent — applying the helper to its own output changes
nothing — and the helper's output always begins and ends with exactly the
delimiters it was given or added, never a second pair. -/
theorem c9_wrap_idempotent (s : List Char) :
    wrapAsterisks (wrapAsterisks s) = wrapAsterisks s ∧
    (wrapAsterisks s).head? = some '*' ∧
    (wrapAsterisks s).getLast? = some '*' ∧
    (startsEndsAst s = true → wrapAsterisks s = s) ∧
    (startsEndsAst s = false → wrapAsterisks s = '*' :: (s ++ ['*'])) := by
  refine ⟨?_, wrapAsterisks_head s, wrapAsterisks_getLast s, ?_, ?_⟩
  · rw [wrapAsterisks, if_pos (startsEndsAst_wrap s)]
  · intro h
    rw [wrapAsterisks, if_pos h]
  · intro h
    rw [wrapAsterisks, h]
    simp

theorem c9_wrap_idempotent_witness :
    wrapAsterisks (wrapAsterisks "01/02/24".data) = wrapAsterisks "01/02/24".data ∧
    wrapAsterisks "01/02/24".data = '*' :: ("01/02/24".data ++ ['*']) :=
  ⟨(c9_wrap_idempotent "01/02/24".data).1,
   (c9_wrap_idempotent "01/02/24".data).2.2.2.2 (by decide)⟩

/-- Claim C4 (corrected): the insertion helper does not inspect the
character following the insertion point; it always appends exactly one
separator space after the wrapped date (whose last character is the
closing delimiter, not a space).  In particular, splicing in front of an
existing space yields two consecutive spaces. -/
theorem c4_unconditional_space (fmt : List FTok) (dt : CDate) (line r : List Char)
    (s e : Nat) (h : line.drop e = ' ' :: r) :
    openDateModalInsert fmt dt line s e =
      line.take s ++ wrapAsterisks (renderFmt fmt dt) ++ ' ' :: ' ' :: r ∧
    (wrapAsterisks (renderFmt fmt dt)).getLast? = some '*' := by
  constructor
  · unfold openDateModalInsert
    rw [h]
  · exact wrapAsterisks_getLast _

theorem c4_unconditional_space_witness :
    openDateModalInsert fmt_MM_DD_YY_slash ⟨2024, 1, 2⟩ "abc ".data 3 3 =
      "abc ".data.take 3 ++
        wrapAsterisks (renderFmt fmt_MM_DD_YY_slash ⟨2024, 1, 2⟩) ++ ' ' :: ' ' :: [] :=
  (c4_unconditional_space fmt_MM_DD_YY_slash ⟨2024, 1, 2⟩ "abc ".data [] 3 3 (by decide)).1

theorem c4_counterexample :
    openDateModalInsert fmt_MM_DD_YY_slash ⟨2024, 1, 2⟩ "abc ".data 3 3 =
      "abc*01/02/24*  ".data ∧
    [' ', ' '] <:+: openDateModalInsert fmt_MM_DD_YY_slash ⟨2024, 1, 2⟩ "abc ".data 3 3 := by
  constructor <;> decide

theorem lastIndexOf_eq_none (c : Char) (l : List Char) (h : c ∉ l) :
    lastIndexOf c l = none := by
  induction l with
  | nil => rfl
  | cons x xs ih =>
    simp only [List.mem_cons, not_or] at h
    simp [lastIndexOf, ih h.2, Ne.symm h.1]

theorem lastIndexOf_cons_self (c : Char) (l : List Char) (h : c ∉ l) :
    lastIndexOf c (c :: l) = some 0 := by
  simp [lastIndexOf, lastIndexOf_eq_none c l h]

/-- Claim C5 (corrected): the trigger classifier imposes no maximum
fragment length and no word-count bound.  Whatever the fragment typed
after the activation character — of any length and any number of
space-separated words — `onTrigger` accepts it, provided only that the
fragment itself contains no further activation character, does not begin
with a space, and does not begin (after trimming) with a completed
`*M/D/YY*` date. -/
theorem c5_no_length_cap (frag : List Char) (curYear : Nat)
    (h1 : '@' ∉ frag) (h2 : frag.head? ≠ some ' ')
    (h3 : completedDateTest (jsTrim frag) = false) :
    onTrigger ('@' :: frag) (frag.length + 1) curYear =
      some ⟨0, frag.length + 1, finalQuery frag curYear⟩ := by
  unfold onTrigger
  have htake : ('@' :: frag).take (frag.length + 1) = '@' :: frag := by
    have hlen : ('@' :: frag).length = frag.length + 1 := by simp
    rw [← hlen, List.take_length]
  have hidx : lastIndexOf '@' ('@' :: frag) = some 0 := lastIndexOf_cons_self _ _ h1
  simp only [htake, hidx]
  have hcond : ¬(0 + 1 < ('@' :: frag).length ∧ ('@' :: frag)[0 + 1]? = some ' ') := by
    rintro ⟨-, hsp⟩
    apply h2
    rw [List.head?_eq_getElem?]
    simpa using hsp
  rw [if_neg hcond]
  simp only [List.drop_succ_cons, List.drop_zero]
  rw [if_neg (by simp [h3])]

theorem c5_no_length_cap_witness :
    onTrigger ('@' :: "abc def ghi jkl mno pqrs".data)
        ("abc def ghi jkl mno pqrs".data.length + 1) 2025 =
      some ⟨0, "abc def ghi jkl mno pqrs".data.length + 1,
        finalQuery "abc def ghi jkl mno pqrs".data 2025⟩ :=
  c5_no_length_cap "abc def ghi jkl mno pqrs".data 2025 (by decide) (by decide) (by decide)

theorem c5_counterexample :
    (onTrigger "@abc def ghi jkl mno pqrs".data 25 2025).isSome = true ∧
    20 < ("abc def ghi jkl mno pqrs".data).length ∧
    2 < ("abc def ghi jkl mno pqrs".data).count ' ' := by
  refine ⟨by decide, by decide, by decide⟩

/-- Claim C6 (corrected): a fragment of the shape
`<word> <1-2 digits> <single digit>` never parses: moment's strict `YY`
token requires exactly two digits, so the single-digit year is rejected
for every reference year — including a reference year whose last digit
equals the typed digit. -/
theorem c6_single_digit_year_rejected (curYear : Nat) :
    resolveFragment "dec 5 9".data curYear = none := rfl

theorem c6_counterexample :
    resolveFragment "dec 5 9".data 2029 = none ∧ 2029 % 10 = 9 := by
  exact ⟨rfl, rfl⟩

/-- Claim C7 (corrected): month-name resolution accepts exactly moment's
month names, case-insensitively ("sep", "SEP", "september", ...), not
arbitrary prefixes of them: "sep 2 24" and "september 2 24" parse to
(2024, 9, 2), but "sept 2 24" parses to nothing. -/
theorem c7_month_name_resolution :
    resolveFragment "sep 2 24".data 2025 = some ⟨2024, 9, 2⟩ ∧
    resolveFragment "SEP 2 24".data 2025 = some ⟨2024, 9, 2⟩ ∧
    resolveFragment "september 2 24".data 2025 = some ⟨2024, 9, 2⟩ ∧
    resolveFragment "sept 2 24".data 2025 = none := by
  refine ⟨by decide, by decide, by decide, by decide⟩

theorem c7_counterexample :
    resolveFragment "sept 2 24".data 2024 = none := by decide

theorem c1_counterexample :
    (findDateAtPosition "*01/02/24*".data 0).foundDate = some "01/02/24".data ∧
    (findDateAtPosition "*01/02/24*".data 1).foundDate = some "01/02/24".data := by
  exact ⟨by decide, by decide⟩

theorem c3_counterexample :
    findDateAtPosition "*01/02/24*".data 3 =
      ⟨some "01/02/24".data, 0, 10⟩ ∧
    ("*01/02/24*".data.take 10).drop 0 ≠ "01/02/24".data := by
  exact ⟨by decide, by decide⟩

theorem c8_counterexample :
    resolveFragment "12/25/2024".data 2025 = some ⟨2024, 12, 25⟩ ∧
    ((getSuggestions (finalQuery "12/25/2024".data 2025) fmt_YYYY_MM_DD
        ⟨2025, 6, 1⟩).filter (·.isDate)).map (·.dateValue) =
      [some "*12/25/24*".data] ∧
    wrapAsterisks (renderFmt fmt_YYYY_MM_DD ⟨2024, 12, 25⟩) = "*2024-12-25*".data ∧
    "*12/25/24*".data ≠ "*2024-12-25*".data := by
  refine ⟨by decide, by decide, by decide, by decide⟩

theorem c2_counterexample :
    isValidDate 1950 1 2 = true ∧
    fmt_MM_DD_YY_slash ∈ strictParseableCatalog ∧
    resolveFragment (renderFmt fmt_MM_DD_YY_slash ⟨1950, 1, 2⟩) 2025 =
      some ⟨2050, 1, 2⟩ := by
  refine ⟨by decide, by decide, by decide⟩

theorem scanDelims_sound (line : List Char) :
    ∀ (s : List Char) (i : Nat) (state : Option (Nat × List Char)),
      line.drop i = s →
      (∀ p : Nat × List Char, state = some p →
        '*' ∉ p.2 ∧ i = p.1 + p.2.length + 1 ∧
        line.drop p.1 = '*' :: (p.2 ++ line.drop (p.1 + p.2.length + 1))) →
      ∀ st inner, (st, inner) ∈ scanDelims s i state →
        inner ≠ [] ∧ '*' ∉ inner ∧
        line.drop st = '*' :: (inner ++ '*' :: line.drop (st + inner.length + 2)) := by
  intro s
  induction s with
  | nil =>
    intro i state hdrop hinv st inner hmem
    simp [scanDelims] at hmem
  | cons c rest ih =>
    intro i state hdrop hinv st inner hmem
    have hdrop1 : line.drop (i + 1) = rest := by
      have h2 : List.drop 1 (line.drop i) = line.drop (i + 1) := by rw [List.drop_drop]
      rw [← h2, hdrop]
      rfl
    obtain _ | ⟨st0, acc⟩ := state
    · rw [scanDelims] at hmem
      by_cases hc : c = '*'
      · rw [if_pos hc] at hmem
        subst hc
        refine ih (i + 1) (some (i, [])) hdrop1 ?_ st inner hmem
        intro p hp
        injection hp with hp
        subst hp
        refine ⟨by simp, by simp, ?_⟩
        simpa [hdrop1] using hdrop
      · rw [if_neg hc] at hmem
        exact ih (i + 1) none hdrop1 (by intro p hp; cases hp) st inner hmem
    · obtain ⟨hnast0, hieq0, hspan0⟩ := hinv (st0, acc) rfl
      have hnast : '*' ∉ acc := hnast0
      have hieq : i = st0 + acc.length + 1 := hieq0
      have hspan : line.drop st0 = '*' :: (acc ++ line.drop (st0 + acc.length + 1)) := hspan0
      rw [scanDelims] at hmem
      by_cases hc : c = '*'
      · rw [if_pos hc] at hmem
        subst hc
        by_cases hacc : acc.isEmpty
        · rw [if_pos hacc] at hmem
          refine ih (i + 1) (some (i, [])) hdrop1 ?_ st inner hmem
          intro p hp
          injection hp with hp
          subst hp
          refine ⟨by simp, by simp, ?_⟩
          simpa [hdrop1] using hdrop
        · rw [if_neg hacc] at hmem
          rw [List.mem_cons] at hmem
          rcases hmem with hmem | hmem
          · injection hmem with hmem1 hmem2
            subst hmem1
            subst hmem2
            refine ⟨by simpa [List.isEmpty_iff] using hacc, hnast, ?_⟩
            rw [hspan, ← hieq, hdrop]
            have : line.drop (st + inner.length + 2) = rest := by
              have harith : st + inner.length + 2 = i + 1 := by omega
              rw [harith, hdrop1]
            rw [this]
          · exact ih (i + 1) none hdrop1 (by intro p hp; cases hp) st inner hmem
      · rw [if_neg hc] at hmem
        refine ih (i + 1) (some (st0, acc ++ [c])) hdrop1 ?_ st inner hmem
        intro p hp
        injection hp with hp
        subst hp
        refine ⟨?_, by simp; omega, ?_⟩
        · simp only [List.mem_append, List.mem_singleton, not_or]
          exact ⟨hnast, fun h => hc h.symm⟩
        · have harith : st0 + (acc ++ [c]).length + 1 = i + 1 := by simp; omega
          rw [harith, hdrop1, hspan, ← hieq, hdrop]
          simp

theorem findDateAux_spec (ch : Nat) (cs : List (Nat × List Char)) (d : List Char)
    (h : (findDateAux ch cs).foundDate = some d) :
    ∃ st inner, (st, inner) ∈ cs ∧ d = inner ∧
      findDateAux ch cs =
        ⟨some inner, (st : Int), ((st + inner.length + 2 : Nat) : Int)⟩ ∧
      st ≤ ch ∧ ch ≤ st + inner.length + 2 := by
  induction cs with
  | nil => simp [findDateAux] at h
  | cons c cs ih =>
    obtain ⟨st0, inner0⟩ := c
    rw [findDateAux] at h ⊢
    by_cases hcond : st0 ≤ ch ∧ ch ≤ st0 + inner0.length + 2
    · rw [if_pos hcond] at h ⊢
      by_cases hval : (momentStrictMulti locatorFormats inner0).isSome
      · rw [if_pos hval] at h ⊢
        refine ⟨st0, inner0, List.mem_cons_self .., ?_, rfl, hcond.1, hcond.2⟩
        injection h with h
        exact h.symm
      · rw [if_neg hval] at h ⊢
        obtain ⟨st, inner, hmem, rest⟩ := ih h
        exact ⟨st, inner, List.mem_cons_of_mem _ hmem, rest⟩
    · rw [if_neg hcond] at h ⊢
      obtain ⟨st, inner, hmem, rest⟩ := ih h
      exact ⟨st, inner, List.mem_cons_of_mem _ hmem, rest⟩

theorem findDateAux_none (ch : Nat) (cs : List (Nat × List Char))
    (h : (findDateAux ch cs).foundDate = none) :
    findDateAux ch cs = ⟨none, -1, -1⟩ := by
  induction cs with
  | nil => rfl
  | cons c cs ih =>
    obtain ⟨st0, inner0⟩ := c
    rw [findDateAux] at h ⊢
    by_cases hcond : st0 ≤ ch ∧ ch ≤ st0 + inner0.length + 2
    · rw [if_pos hcond] at h ⊢
      by_cases hval : (momentStrictMulti locatorFormats inner0).isSome
      · rw [if_pos hval] at h
        cases h
      · rw [if_neg hval] at h ⊢
        exact ih h
    · rw [if_neg hcond] at h ⊢
      exact ih h

/-- Claim C1 (corrected): `findDateAtPosition` accepts a delimiter-wrapped
candidate when the offset lies within the candidate's outer span
INCLUSIVELY (the code tests `ch >= start && ch <= end` against the span
including both delimiters): whenever a match is returned the offset lies
between the returned bounds inclusive, so offsets on the delimiter
characters themselves and offsets equal to the inner boundaries are
accepted rather than rejected. -/
theorem c1_inclusive_bounds (line : List Char) (ch : Nat) (d : List Char)
    (h : (findDateAtPosition line ch).foundDate = some d) :
    ∃ s e : Nat, (findDateAtPosition line ch).start = (s : Int) ∧
      (findDateAtPosition line ch).endPos = (e : Int) ∧
      s ≤ ch ∧ ch ≤ e := by
  rw [findDateAtPosition] at h
  obtain ⟨st, inner, -, -, heq, hle, hge⟩ := findDateAux_spec ch _ d h
  refine ⟨st, st + inner.length + 2, ?_, ?_, hle, hge⟩
  · rw [findDateAtPosition, heq]
  · rw [findDateAtPosition, heq]

theorem c1_inclusive_bounds_witness :
    ∃ s e : Nat, (findDateAtPosition "*01/02/24*".data 3).start = (s : Int) ∧
      (findDateAtPosition "*01/02/24*".data 3).endPos = (e : Int) ∧
      s ≤ 3 ∧ 3 ≤ e :=
  c1_inclusive_bounds "*01/02/24*".data 3 "01/02/24".data (by decide)

/-- Claim C3 (corrected): whenever the locator returns a match, the bounds
satisfy `0 ≤ start`, `start + 2 ≤ end` and `end ≤ line.length`, but the
matched text equals the substring STRICTLY INSIDE the delimiters,
`line[start+1 : end-1]`, not `line[start : end]`: the returned span
covers the two asterisks while the returned text excludes them. -/
theorem c3_locator_invariant (line : List Char) (ch : Nat) (d : List Char)
    (h : (findDateAtPosition line ch).foundDate = some d) :
    ∃ s e : Nat, (findDateAtPosition line ch).start = (s : Int) ∧
      (findDateAtPosition line ch).endPos = (e : Int) ∧
      s + 2 ≤ e ∧ e ≤ line.length ∧
      d = (line.take (e - 1)).drop (s + 1) := by
  rw [findDateAtPosition] at h
  obtain ⟨st, inner, hmem, hd, heq, -, -⟩ := findDateAux_spec ch _ d h
  obtain ⟨hne, hnast, hdec⟩ :=
    scanDelims_sound line line 0 none rfl (by intro p hp; cases hp) st inner hmem
  refine ⟨st, st + inner.length + 2, ?_, ?_, by omega, ?_, ?_⟩
  · rw [findDateAtPosition, heq]
  · rw [findDateAtPosition, heq]
  · have hlen := congrArg List.length hdec
    simp [List.length_drop] at hlen
    omega
  · have h1 : line.drop (st + 1) = inner ++ '*' :: line.drop (st + inner.length + 2) := by
      have h2 : List.drop 1 (line.drop st) = line.drop (st + 1) := by rw [List.drop_drop]
      rw [← h2, hdec]
      rfl
    rw [hd, List.drop_take]
    have harith : st + inner.length + 2 - 1 - (st + 1) = inner.length := by omega
    rw [harith, h1]
    exact (List.take_left inner _).symm

theorem c3_locator_invariant_witness :
    ∃ s e : Nat, (findDateAtPosition "*01/02/24*".data 3).start = (s : Int) ∧
      (findDateAtPosition "*01/02/24*".data 3).endPos = (e : Int) ∧
      s + 2 ≤ e ∧ e ≤ "*01/02/24*".data.length ∧
      "01/02/24".data = ("*01/02/24*".data.take (e - 1)).drop (s + 1) :=
  c3_locator_invariant "*01/02/24*".data 3 "01/02/24".data (by decide)

/-- Claim C10 (confirmed): whenever `findDateAtPosition` returns a match,
the matched inner text is nonempty and contains no asterisk character
(the candidate regex requires at least one non-asterisk character between
the delimiters); on no match the sentinel is `foundDate = null` with
`start = end = -1`. -/
theorem c10_locator_sentinel (line : List Char) (ch : Nat) :
    (∀ d, (findDateAtPosition line ch).foundDate = some d → d ≠ [] ∧ '*' ∉ d) ∧
    ((findDateAtPosition line ch).foundDate = none →
      (findDateAtPosition line ch).start = -1 ∧
      (findDateAtPosition line ch).endPos = -1) := by
  constructor
  · intro d h
    rw [findDateAtPosition] at h
    obtain ⟨st, inner, hmem, hd, -, -, -⟩ := findDateAux_spec ch _ d h
    obtain ⟨hne, hnast, -⟩ :=
      scanDelims_sound line line 0 none rfl (by intro p hp; cases hp) st inner hmem
    subst hd
    exact ⟨hne, hnast⟩
  · intro h
    rw [findDateAtPosition] at h ⊢
    rw [findDateAux_none ch _ h]
    exact ⟨rfl, rfl⟩

theorem c10_locator_sentinel_witness :
    "01/02/24".data ≠ [] ∧ '*' ∉ "01/02/24".data :=
  (c10_locator_sentinel "*01/02/24*".data 3).1 "01/02/24".data (by decide)

theorem renderStar_shape (dt : CDate) :
    renderFmt fmt_star_MM_DD_YY_star dt =
      '*' :: (pad2 dt.month ++ '/' :: (pad2 dt.day ++ '/' ::
        (pad2 (dt.year % 100) ++ ['*']))) := by
  simp [renderFmt, renderTok, fmt_star_MM_DD_YY_star]

/-- Claim C8 (corrected): whenever the typed fragment resolves to a
concrete date, exactly one concrete-date suggestion is emitted, and its
insertion text is that date rendered in the FIXED `MM/DD/YY` pattern and
delimiter-wrapped (`'*MM/DD/YY*'`) — the configured output format does
not influence the insertion text of the parsed-date suggestion. -/
theorem c8_fixed_format_suggestion (q : List Char) (curYear : Nat)
    (fmt : List FTok) (today dt : CDate)
    (h : resolveFragment q curYear = some dt) :
    (getSuggestions (finalQuery q curYear) fmt today).filter (·.isDate) =
      [⟨"Insert date: ".data ++ renderFmt fmt_star_MM_DD_YY_star dt, true,
        some (renderFmt fmt_star_MM_DD_YY_star dt)⟩] := by
  have hq : finalQuery q curYear = renderFmt fmt_star_MM_DD_YY_star dt := by
    rw [finalQuery, h]
  rw [hq]
  have hshape := renderStar_shape dt
  have hhead : (renderFmt fmt_star_MM_DD_YY_star dt).head? = some '*' := by
    rw [hshape]
    rfl
  have hlast : (renderFmt fmt_star_MM_DD_YY_star dt).getLast? = some '*' := by
    rw [hshape]
    have hsplit : '*' :: (pad2 dt.month ++ '/' :: (pad2 dt.day ++ '/' ::
        (pad2 (dt.year % 100) ++ ['*']))) =
      ('*' :: (pad2 dt.month ++ '/' :: (pad2 dt.day ++ '/' ::
        pad2 (dt.year % 100)))) ++ ['*'] := by
      simp
    rw [hsplit, List.getLast?_concat]
  have hstar : ('*').isWhitespace = false := by decide
  have hallws : (renderFmt fmt_star_MM_DD_YY_star dt).all (·.isWhitespace) = false := by
    rw [hshape]
    simp [List.all_cons, hstar]
  rw [getSuggestions]
  rw [if_pos (by simp [hhead, hlast]), if_neg (by simp [hallws])]
  rfl

theorem c8_fixed_format_suggestion_witness :
    (getSuggestions (finalQuery "12/25/24".data 2025) fmt_YYYY_MM_DD
        ⟨2025, 6, 1⟩).filter (·.isDate) =
      [⟨"Insert date: ".data ++ renderFmt fmt_star_MM_DD_YY_star ⟨2024, 12, 25⟩, true,
        some (renderFmt fmt_star_MM_DD_YY_star ⟨2024, 12, 25⟩)⟩] :=
  c8_fixed_format_suggestion "12/25/24".data 2025 fmt_YYYY_MM_DD ⟨2025, 6, 1⟩
    ⟨2024, 12, 25⟩ (by decide)

theorem isDigit_digitChar (k : Nat) (h : k < 10) : (Nat.digitChar k).isDigit = true := by
  interval_cases k <;> decide

theorem digitVal_digitChar (k : Nat) (h : k < 10) : digitVal (Nat.digitChar k) = k := by
  interval_cases k <;> decide

theorem digitChar_ne_slash (k : Nat) (h : k < 10) : Nat.digitChar k ≠ '/' := by
  interval_cases k <;> decide

theorem digitChar_ne_dash (k : Nat) (h : k < 10) : Nat.digitChar k ≠ '-' := by
  interval_cases k <;> decide

theorem read1to2_pad2 (n : Nat) (h : n < 100) (r : List Char) :
    read1to2 (pad2 n ++ r) = some (n, r) := by
  have ha : n / 10 < 10 := by omega
  have hb : n % 10 < 10 := by omega
  simp [pad2, read1to2, isDigit_digitChar _ ha, isDigit_digitChar _ hb,
    digitVal_digitChar _ ha, digitVal_digitChar _ hb]
  omega

theorem read2_pad2 (n : Nat) (h : n < 100) (r : List Char) :
    read2 (pad2 n ++ r) = some (n, r) := by
  have ha : n / 10 < 10 := by omega
  have hb : n % 10 < 10 := by omega
  simp [pad2, read2, isDigit_digitChar _ ha, isDigit_digitChar _ hb,
    digitVal_digitChar _ ha, digitVal_digitChar _ hb]
  omega

theorem read2_pad2_nil (n : Nat) (h : n < 100) :
    read2 (pad2 n) = some (n, []) := by
  have h2 := read2_pad2 n h []
  simpa using h2

theorem read4_pad2_pad2 (a b : Nat) (ha : a < 100) (hb : b < 100) (r : List Char) :
    read4 (pad2 a ++ (pad2 b ++ r)) = some (100 * a + b, r) := by
  have h1 : a / 10 < 10 := by omega
  have h2 : a % 10 < 10 := by omega
  have h3 : b / 10 < 10 := by omega
  have h4 : b % 10 < 10 := by omega
  simp [pad2, read4, isDigit_digitChar _ h1, isDigit_digitChar _ h2,
    isDigit_digitChar _ h3, isDigit_digitChar _ h4, digitVal_digitChar _ h1,
    digitVal_digitChar _ h2, digitVal_digitChar _ h3, digitVal_digitChar _ h4]
  omega

theorem read4_pad2_pad2_nil (a b : Nat) (ha : a < 100) (hb : b < 100) :
    read4 (pad2 a ++ pad2 b) = some (100 * a + b, []) := by
  have h2 := read4_pad2_pad2 a b ha hb []
  simpa using h2

theorem pad2_isEmpty (n : Nat) : (pad2 n).isEmpty = false := rfl

theorem pad4_split (n : Nat) : pad4 n = pad2 (n / 100) ++ pad2 (n % 100) := by
  have e1 : n / 1000 = n / 100 / 10 := by omega
  have e3 : n / 10 % 10 = n % 100 / 10 := by omega
  have e4 : n % 10 = n % 100 % 10 := by omega
  simp [pad4, pad2, e1, e3, e4]

theorem runToks_lit_pad2_fail (sep : Char) (n : Nat)
    (h : Nat.digitChar (n / 10) ≠ sep) (ts : List FTok) (r : List Char) (acc : RawDMY) :
    runToks (.lit sep :: ts) (pad2 n ++ r) acc = none := by
  simp [pad2, runToks, h]

theorem daysInMonth_le31 (y m : Nat) : daysInMonth y m ≤ 31 := by
  unfold daysInMonth
  split
  · split <;> omega
  · split <;> omega

theorem twoDigitYear_mod (y : Nat) (h1 : 1969 ≤ y) (h2 : y ≤ 2068) :
    twoDigitYear (y % 100) = y := by
  unfold twoDigitYear
  split <;> omega

/-- Claim C2 (corrected): the parse-format round trip holds for every
strict-parseable FormatSpec of the Format Catalog (those whose pattern the
parser also tries strictly: `MM/DD/YY`, `MM-DD-YY`, `YYYY-MM-DD`,
`MM/DD/YYYY`) on every valid date whose year lies in moment's
two-digit-year window 1969–2068.  Outside that window the two-digit-year
specs remap the year (e.g. 1950 round-trips to 2050), so the claim as
stated over ALL valid dates fails. -/
theorem c2_roundtrip (y m d curYear : Nat) (f : List FTok)
    (hv : isValidDate y m d = true) (h1 : 1969 ≤ y) (h2 : y ≤ 2068)
    (hf : f ∈ strictParseableCatalog) :
    resolveFragment (renderFmt f ⟨y, m, d⟩) curYear = some ⟨y, m, d⟩ := by
  have hcat : strictParseableCatalog =
      [fmt_MM_DD_YY_slash, fmt_MM_DD_YY_dash, fmt_YYYY_MM_DD, fmt_MM_DD_YYYY_slash] := by
    decide
  rw [hcat] at hf
  have hvv := hv
  rw [isValidDate] at hv
  simp only [Bool.and_eq_true, decide_eq_true_eq] at hv
  obtain ⟨⟨⟨hm1, hm2⟩, hd1⟩, hd2⟩ := hv
  have hdm := daysInMonth_le31 y m
  have hm100 : m < 100 := by omega
  have hd100 : d < 100 := by omega
  have hq100 : y / 100 < 100 := by omega
  have hr100 : y % 100 < 100 := by omega
  have htw : twoDigitYear (y % 100) = y := twoDigitYear_mod y h1 h2
  have hsum : 100 * (y / 100) + y % 100 = y := by omega
  simp only [List.mem_cons, List.not_mem_nil, or_false] at hf
  rcases hf with rfl | rfl | rfl | rfl
  · have hr : renderFmt fmt_MM_DD_YY_slash ⟨y, m, d⟩ =
        pad2 m ++ '/' :: (pad2 d ++ '/' :: pad2 (y % 100)) := by
      simp [renderFmt, renderTok, fmt_MM_DD_YY_slash]
    rw [hr]
    have hs : momentStrictMulti onTriggerFormats
        (pad2 m ++ '/' :: (pad2 d ++ '/' :: pad2 (y % 100))) = some ⟨y, m, d⟩ := by
      simp [momentStrictMulti, onTriggerFormats, momentStrict, runToks,
        fmt_M_D_YY_slash, read1to2_pad2 m hm100, read1to2_pad2 d hd100,
        read2_pad2_nil (y % 100) hr100, htw, hvv]
    simp [resolveFragment, hs]
  · have hr : renderFmt fmt_MM_DD_YY_dash ⟨y, m, d⟩ =
        pad2 m ++ '-' :: (pad2 d ++ '-' :: pad2 (y % 100)) := by
      simp [renderFmt, renderTok, fmt_MM_DD_YY_dash]
    rw [hr]
    have hs : momentStrictMulti onTriggerFormats
        (pad2 m ++ '-' :: (pad2 d ++ '-' :: pad2 (y % 100))) = some ⟨y, m, d⟩ := by
      simp [momentStrictMulti, onTriggerFormats, momentStrict, runToks,
        fmt_M_D_YY_slash, fmt_MM_DD_YY_slash, fmt_M_D_YY_dash,
        read1to2_pad2 m hm100, read2_pad2 m hm100, read1to2_pad2 d hd100,
        read2_pad2_nil (y % 100) hr100, htw, hvv]
    simp [resolveFragment, hs]
  · have hr : renderFmt fmt_YYYY_MM_DD ⟨y, m, d⟩ =
        pad4 y ++ '-' :: (pad2 m ++ '-' :: pad2 d) := by
      simp [renderFmt, renderTok, fmt_YYYY_MM_DD]
    rw [hr, pad4_split y, List.append_assoc]
    have hne1 := digitChar_ne_slash ((y % 100) / 10) (by omega)
    have hne2 := digitChar_ne_dash ((y % 100) / 10) (by omega)
    have hs : momentStrictMulti onTriggerFormats
        (pad2 (y / 100) ++ (pad2 (y % 100) ++ '-' :: (pad2 m ++ '-' :: pad2 d))) =
        some ⟨y, m, d⟩ := by
      simp only [momentStrictMulti, onTriggerFormats, momentStrict, runToks,
        fmt_M_D_YY_slash, fmt_MM_DD_YY_slash, fmt_M_D_YY_dash, fmt_MM_DD_YY_dash,
        fmt_M_D_YYYY_slash, fmt_MM_DD_YYYY_slash, fmt_M_D_YYYY_dash, fmt_MM_DD_YYYY_dash,
        fmt_YYYY_MM_DD,
        read1to2_pad2 (y / 100) hq100, read2_pad2 (y / 100) hq100,
        read4_pad2_pad2 (y / 100) (y % 100) hq100 hr100,
        read2_pad2 m hm100, read2_pad2_nil d hd100, hsum, hvv]
      simp [pad2, hne1, hne2, hvv, hsum]
    simp [resolveFragment, hs]
  · have hr : renderFmt fmt_MM_DD_YYYY_slash ⟨y, m, d⟩ =
        pad2 m ++ '/' :: (pad2 d ++ '/' :: pad4 y) := by
      simp [renderFmt, renderTok, fmt_MM_DD_YYYY_slash]
    rw [hr, pad4_split y]
    have hs : momentStrictMulti onTriggerFormats
        (pad2 m ++ '/' :: (pad2 d ++ '/' :: (pad2 (y / 100) ++ pad2 (y % 100)))) =
        some ⟨y, m, d⟩ := by
      simp [momentStrictMulti, onTriggerFormats, momentStrict, runToks,
        fmt_M_D_YY_slash, fmt_MM_DD_YY_slash, fmt_M_D_YY_dash, fmt_MM_DD_YY_dash,
        fmt_M_D_YYYY_slash,
        read1to2_pad2 m hm100, read2_pad2 m hm100,
        read1to2_pad2 d hd100, read2_pad2 d hd100,
        read2_pad2 (y / 100) hq100, pad2_isEmpty,
        read4_pad2_pad2_nil (y / 100) (y % 100) hq100 hr100, hsum, hvv]
    simp [resolveFragment, hs]

theorem c2_roundtrip_witness :
    resolveFragment (renderFmt fmt_MM_DD_YY_slash ⟨2024, 2, 29⟩) 2025 =
      some ⟨2024, 2, 29⟩ :=
  c2_roundtrip 2024 2 29 2025 fmt_MM_DD_YY_slash (by decide) (by omega) (by omega)
    (by decide)
